import Mathlib

/- Verification of the Pumpkin entity core: attribute store and resolver
(src/pumpkin/src/entity/attribute_manager.rs), collision-adjusted movement and
fluid scanning (src/pumpkin/src/entity/mod.rs).  Rust f64 values are embedded
as exact rationals, machine integer coordinates as Int/Nat. -/

/-- The three modifier operations of pumpkin-data data_component_impl::Operation. -/
inductive Operation where
  | addValue
  | addMultipliedBase
  | addMultipliedTotal
deriving DecidableEq, Repr

/-- Equipment-slot applicability predicate of a modifier
(pumpkin-data AttributeModifierSlot). -/
inductive AttributeModifierSlot where
  | any
  | mainHand
  | offHand
  | hand
  | feet
  | legs
  | chest
  | head
  | armor
  | body
  | saddle
deriving DecidableEq, Repr

/-- Attributes are identified by their u8 registry id (pumpkin-data Attribute,
whose equality and hash are on the id field). -/
abbrev Attribute := Nat

/-- An item attribute modifier (pumpkin-data Modifier): target attribute,
amount, operation, slot predicate.  The string id field plays no role in
resolution and is omitted. -/
structure Modifier where
  type : Attribute
  amount : ℚ
  operation : Operation
  slot : AttributeModifierSlot
deriving DecidableEq, Repr

/-- The only part of an ItemStack read by attribute resolution: its optional
AttributeModifiersImpl data component (a list of modifiers). -/
structure ItemStack where
  attributeModifiers : Option (List Modifier)
deriving DecidableEq, Repr

/-- A status-effect attribute modifier (pumpkin-data effect::Modifiers):
target attribute, base value, operation.  The source field `attribute` is a
Lean keyword and is rendered `attr` here. -/
structure EffectModifiers where
  attr : Attribute
  baseValue : ℚ
  operation : Operation
deriving DecidableEq, Repr

/-- A status effect, reduced to the data resolution reads: its attribute
modifier list (pumpkin-data StatusEffect.attribute_modifiers). -/
structure StatusEffect where
  attributeModifiers : List EffectModifiers
deriving DecidableEq, Repr

/-- An active effect instance (pumpkin_data::potion::Effect); resolution reads
only the amplifier (a u8, read as `effect.amplifier as f64`). -/
structure Effect where
  amplifier : Nat
deriving DecidableEq, Repr

/-- Error returned when an attribute key is absent from the store
(AttributeNoteFoundError in the source, name kept). -/
inductive AttributeNoteFoundError where
  | mk
deriving DecidableEq, Repr

/-- Per-attribute cell: the immutable default fixed at construction and the
mutable current base value (an AtomicCell in the source). -/
structure AttributeValueTuple where
  default : ℚ
  currentBaseValue : ℚ
deriving DecidableEq, Repr

/-- The HashMap from Attribute to AttributeValueTuple, embedded as an
association list with unique keys maintained by insertion. -/
abbrev AttributeValues := List (Attribute × AttributeValueTuple)

/-- HashMap::get on the embedded map. -/
def lookupValues : AttributeValues → Attribute → Option AttributeValueTuple
  | [], _ => none
  | e :: rest, attr => if e.1 = attr then some e.2 else lookupValues rest attr

/-- AtomicCell::store on the current_base_value of the entry for `attr`
(no-op when the key is absent, matching that the source only stores after a
successful lookup). -/
def storeBase : AttributeValues → Attribute → ℚ → AttributeValues
  | [], _, _ => []
  | e :: rest, attr, v =>
      if e.1 = attr then (e.1, { e.2 with currentBaseValue := v }) :: rest
      else e :: storeBase rest attr v

/-- AttributeManager: per-entity map of attribute cells. -/
structure AttributeManager where
  values : AttributeValues
deriving DecidableEq, Repr

/-- AttributeManager::get_base. -/
def getBase (m : AttributeManager) (attr : Attribute) :
    Except AttributeNoteFoundError ℚ :=
  match lookupValues m.values attr with
  | none => Except.error AttributeNoteFoundError.mk
  | some v => Except.ok v.currentBaseValue

/-- AttributeManager::set_base; the mutation is returned as the second
component (the manager after the call). -/
def setBase (m : AttributeManager) (attr : Attribute) (value : ℚ) :
    Except AttributeNoteFoundError Unit × AttributeManager :=
  match lookupValues m.values attr with
  | none => (Except.error AttributeNoteFoundError.mk, m)
  | some _ => (Except.ok (), ⟨storeBase m.values attr value⟩)

/-- AttributeManager::reset_base; returns the call result paired with the
manager after the call. -/
def resetBase (m : AttributeManager) (attr : Attribute) :
    Except AttributeNoteFoundError ℚ × AttributeManager :=
  match lookupValues m.values attr with
  | none => (Except.error AttributeNoteFoundError.mk, m)
  | some attrValue =>
      (Except.ok attrValue.default, ⟨storeBase m.values attr attrValue.default⟩)

/-- HashMap::entry(attr).insert_entry(tuple): replace the existing entry for
the key or append a new one. -/
def insertEntry : AttributeValues → Attribute → AttributeValueTuple → AttributeValues
  | [], attr, t => [(attr, t)]
  | e :: rest, attr, t =>
      if e.1 = attr then (attr, t) :: rest else e :: insertEntry rest attr t

/-- AttributeManagerBuilder::build over the builder's (attribute, default)
list: every entry becomes a cell whose default and current base are the
default value. -/
def buildManager (entries : List (Attribute × ℚ)) : AttributeManager :=
  ⟨entries.foldl
    (fun vals e => insertEntry vals e.1 ⟨e.2, e.2⟩) []⟩

/-- Whether a modifier with slot predicate `modSlot` is active in equipment
slot index `slot` (the match in get_modified). -/
def isApplicable (modSlot : AttributeModifierSlot) (slot : Nat) : Bool :=
  match modSlot with
  | .any => true
  | .mainHand => slot == 0
  | .offHand => slot == 1
  | .hand => decide (slot ≤ 1)
  | .feet => slot == 2
  | .legs => slot == 3
  | .chest => slot == 4
  | .head => slot == 5
  | .armor => decide (2 ≤ slot) && decide (slot ≤ 5)
  | .body => slot == 6
  | .saddle => slot == 7

/-- One modifier application: the match on Operation in get_modified.
`base` is the base value read once at the start of resolution, `modified`
the running value. -/
def applyOperation (base modified : ℚ) (op : Operation) (amount : ℚ) : ℚ :=
  match op with
  | .addValue => modified + amount
  | .addMultipliedBase => modified + amount * base
  | .addMultipliedTotal => modified + amount * modified

/-- The inner loop of get_modified over one stack's modifier list: skip
modifiers for other attributes or inactive slots, apply the rest in list
order. -/
def applyItemModifiers (attr : Attribute) (base : ℚ) (slot : Nat)
    (modified : ℚ) (itemModifiers : List Modifier) : ℚ :=
  itemModifiers.foldl
    (fun modified modifier =>
      if modifier.type = attr ∧ isApplicable modifier.slot slot = true then
        applyOperation base modified modifier.operation modifier.amount
      else modified)
    modified

/-- The equipment loop of get_modified over the snapshot (slot, stack) pairs:
stacks without an AttributeModifiers component are skipped. -/
def applyEquipment (attr : Attribute) (base : ℚ)
    (equipmentData : List (Nat × ItemStack)) (modified : ℚ) : ℚ :=
  equipmentData.foldl
    (fun modified slotStack =>
      match slotStack.2.attributeModifiers with
      | none => modified
      | some itemModifiers =>
          applyItemModifiers attr base slotStack.1 modified itemModifiers)
    modified

/-- The status-effect loop of get_modified: for each active effect, apply its
modifiers for this attribute with amount `base_value * (amplifier + 1)`. -/
def applyEffects (attr : Attribute) (base : ℚ)
    (effects : List (StatusEffect × Effect)) (modified : ℚ) : ℚ :=
  effects.foldl
    (fun modified se =>
      se.1.attributeModifiers.foldl
        (fun modified modifier =>
          if modifier.attr = attr then
            applyOperation base modified modifier.operation
              (modifier.baseValue * ((se.2.amplifier : ℚ) + 1))
          else modified)
        modified)
    modified

/-- The snapshot entry pushed for the implicit main-hand override:
`equipment_data.push((0, main_hand))`. -/
def mainHandEntry : Option ItemStack → List (Nat × ItemStack)
  | some mh => [(0, mh)]
  | none => []

/-- AttributeManager::get_modified.  `equipment` is the cloned snapshot of
(slot discriminant, stack) pairs in the equipment container's iteration
order; the optional main-hand override is pushed at the end of that snapshot
with slot index 0, exactly as `equipment_data.push((0, main_hand))` does. -/
def getModified (m : AttributeManager) (attr : Attribute)
    (equipment : List (Nat × ItemStack)) (mainHand : Option ItemStack)
    (effects : List (StatusEffect × Effect)) :
    Except AttributeNoteFoundError ℚ :=
  match lookupValues m.values attr with
  | none => Except.error AttributeNoteFoundError.mk
  | some attrValue =>
      let base := attrValue.currentBaseValue
      let equipmentData := equipment ++ mainHandEntry mainHand
      let afterItems := applyEquipment attr base equipmentData base
      Except.ok (applyEffects attr base effects afterItems)

/-- The (operation, amount) pairs of one stack's modifiers that get_modified
applies for `attr` at slot index `slot`, in modifier-list order. -/
def appliedItemModifierList (attr : Attribute) (slotStack : Nat × ItemStack) :
    List (Operation × ℚ) :=
  match slotStack.2.attributeModifiers with
  | none => []
  | some l =>
      (l.filter
        (fun md => decide (md.type = attr ∧ isApplicable md.slot slotStack.1 = true))).map
        (fun md => (md.operation, md.amount))

/-- The (operation, amount) pairs one active status effect contributes for
`attr`, with the amplifier-scaled amounts. -/
def appliedEffectModifierList (attr : Attribute) (se : StatusEffect × Effect) :
    List (Operation × ℚ) :=
  (se.1.attributeModifiers.filter (fun md => decide (md.attr = attr))).map
    (fun md => (md.operation, md.baseValue * ((se.2.amplifier : ℚ) + 1)))

/-- Every modifier get_modified applies for `attr`, in application order:
the equipment snapshot in its own order, then the main-hand override entry,
then the status effects. -/
def modifierSequence (attr : Attribute) (equipment : List (Nat × ItemStack))
    (mainHand : Option ItemStack) (effects : List (StatusEffect × Effect)) :
    List (Operation × ℚ) :=
  ((equipment ++ mainHandEntry mainHand).flatMap (appliedItemModifierList attr))
    ++ effects.flatMap (appliedEffectModifierList attr)

/-- Sequential application of a list of (operation, amount) pairs to a
running value, every step reading the original `base` and the running
`modified`. -/
def applyModifierList (base modified : ℚ) (L : List (Operation × ℚ)) : ℚ :=
  L.foldl (fun modified oa => applyOperation base modified oa.1 oa.2) modified

/-- Follows the words of the specification (claim C1), not the source: the
equipped slots are visited in the fixed slot order mainhand=0, offhand=1,
feet=2, legs=3, chest=4, head=5, body=6, saddle=7, with the implicit
main-hand override included at its slot-0 position in that order. -/
def getModifiedFixedSlotOrder (m : AttributeManager) (attr : Attribute)
    (equipment : List (Nat × ItemStack)) (mainHand : Option ItemStack)
    (effects : List (StatusEffect × Effect)) :
    Except AttributeNoteFoundError ℚ :=
  match lookupValues m.values attr with
  | none => Except.error AttributeNoteFoundError.mk
  | some attrValue =>
      let base := attrValue.currentBaseValue
      let equipmentData :=
        (mainHandEntry mainHand ++ equipment).insertionSort
          (fun a b => a.1 ≤ b.1)
      let afterItems := applyEquipment attr base equipmentData base
      Except.ok (applyEffects attr base effects afterItems)

/-- A sequence of set_base calls applied in order (the state after each
call). -/
def applySetBases (m : AttributeManager) (ops : List (Attribute × ℚ)) :
    AttributeManager :=
  ops.foldl (fun m op => (setBase m op.1 op.2).2) m

lemma applyEffects_nil (attr : Attribute) (base modified : ℚ) :
    applyEffects attr base [] modified = modified := rfl

lemma applyEquipment_no_components (attr : Attribute) (base : ℚ) :
    ∀ (L : List (Nat × ItemStack)) (modified : ℚ),
      (∀ s ∈ L, (s : Nat × ItemStack).2.attributeModifiers = none) →
      applyEquipment attr base L modified = modified := by
  intro L
  induction L with
  | nil => intro modified _; rfl
  | cons e rest ih =>
      intro modified h
      have he := h e (List.mem_cons_self e rest)
      have hrest : ∀ s ∈ rest, (s : Nat × ItemStack).2.attributeModifiers = none :=
        fun s hs => h s (List.mem_cons_of_mem e hs)
      show applyEquipment attr base (e :: rest) modified = modified
      simp only [applyEquipment, List.foldl_cons, he]
      exact ih modified hrest

lemma applyModifierList_append (base modified : ℚ)
    (L1 L2 : List (Operation × ℚ)) :
    applyModifierList base modified (L1 ++ L2)
      = applyModifierList base (applyModifierList base modified L1) L2 := by
  simp [applyModifierList, List.foldl_append]

/-- C2: an AddMultipliedBase modifier always adds amount times the original
base value read at the start of resolution, independent of the modifiers
applied earlier in the same resolution; concretely, base 10 with AddValue(+5)
then AddMultipliedBase(0.5) resolves to 10 + 5 + 0.5*10 = 20, not 7.5. -/
theorem addMultipliedBase_uses_original_base :
    (∀ (base amount : ℚ) (p : List (Operation × ℚ)),
      applyModifierList base base (p ++ [(Operation.addMultipliedBase, amount)])
        = applyModifierList base base p + amount * base)
    ∧ getModified ⟨[(1, ⟨10, 10⟩)]⟩ 1
        [(0, ⟨some [⟨1, 5, Operation.addValue, AttributeModifierSlot.any⟩,
                    ⟨1, 1/2, Operation.addMultipliedBase, AttributeModifierSlot.any⟩]⟩)]
        none [] = Except.ok 20 := by
  constructor
  · intro base amount p
    rw [applyModifierList_append]
    simp [applyModifierList, applyOperation]
  · simp [getModified, lookupValues, applyEquipment, applyItemModifiers,
      applyEffects, applyOperation, isApplicable, mainHandEntry]
    norm_num

/-- C3: an AddMultipliedTotal modifier adds amount times the running modified
value at the moment it is applied, so successive AddMultipliedTotal modifiers
compound; concretely, base 10 with AddMultipliedTotal(0.1) twice resolves to
10 + 1 + 1.1 = 12.1. -/
theorem addMultipliedTotal_compounds :
    (∀ (base amount : ℚ) (p : List (Operation × ℚ)),
      applyModifierList base base (p ++ [(Operation.addMultipliedTotal, amount)])
        = applyModifierList base base p
            + amount * applyModifierList base base p)
    ∧ getModified ⟨[(1, ⟨10, 10⟩)]⟩ 1
        [(0, ⟨some [⟨1, 1/10, Operation.addMultipliedTotal, AttributeModifierSlot.any⟩,
                    ⟨1, 1/10, Operation.addMultipliedTotal, AttributeModifierSlot.any⟩]⟩)]
        none [] = Except.ok 12.1 := by
  constructor
  · intro base amount p
    rw [applyModifierList_append]
    simp [applyModifierList, applyOperation]
  · simp [getModified, lookupValues, applyEquipment, applyItemModifiers,
      applyEffects, applyOperation, isApplicable, mainHandEntry]
    norm_num

/-- C4: for every attribute present in the store, with equipment stacks that
have no attribute-modifier component, a main-hand override (if any) without
modifiers, and an empty status-effect map, get_modified returns exactly
get_base. -/
theorem getModified_no_modifiers_eq_getBase :
    ∀ (m : AttributeManager) (attr : Attribute)
      (equipment : List (Nat × ItemStack)) (mainHand : Option ItemStack)
      (t : AttributeValueTuple),
      lookupValues m.values attr = some t →
      (∀ s ∈ equipment, (s : Nat × ItemStack).2.attributeModifiers = none) →
      (∀ mh, mainHand = some mh → mh.attributeModifiers = none) →
      getModified m attr equipment mainHand [] = getBase m attr := by
  intro m attr equipment mainHand t hlook heq hmh
  have hall : ∀ s ∈ equipment ++ mainHandEntry mainHand,
      (s : Nat × ItemStack).2.attributeModifiers = none := by
    intro s hs
    rcases List.mem_append.mp hs with h | h
    · exact heq s h
    · cases mainHand with
      | none => simp [mainHandEntry] at h
      | some mh =>
          simp [mainHandEntry] at h
          rw [h]
          exact hmh mh rfl
  simp only [getModified, getBase, hlook]
  rw [applyEquipment_no_components _ _ _ _ hall, applyEffects_nil]

lemma lookupValues_storeBase (a b : Attribute) (v : ℚ) :
    ∀ (vals : AttributeValues),
      lookupValues (storeBase vals a v) b =
        if a = b then
          (lookupValues vals b).map (fun t => { t with currentBaseValue := v })
        else lookupValues vals b := by
  intro vals
  induction vals with
  | nil => simp [storeBase, lookupValues]
  | cons e rest ih =>
      by_cases hea : e.1 = a
      · subst hea
        by_cases heb : e.1 = b
        · subst heb
          simp [storeBase, lookupValues]
        · simp [storeBase, lookupValues, heb]
      · by_cases heb : e.1 = b
        · subst heb
          have hab : ¬ a = e.1 := fun h => hea h.symm
          simp [storeBase, lookupValues, hea, hab]
        · simp [storeBase, lookupValues, hea, heb, ih]

lemma lookupValues_setBase_default (m : AttributeManager) (a : Attribute)
    (v : ℚ) (b : Attribute) :
    (lookupValues (setBase m a v).2.values b).map AttributeValueTuple.default
      = (lookupValues m.values b).map AttributeValueTuple.default := by
  unfold setBase
  cases h : lookupValues m.values a with
  | none => rfl
  | some t =>
      simp only [lookupValues_storeBase]
      by_cases hab : a = b
      · subst hab
        simp [Option.map_map]
        rfl
      · simp [hab]

lemma lookupValues_applySetBases_default (ops : List (Attribute × ℚ)) :
    ∀ (m : AttributeManager) (b : Attribute),
      (lookupValues (applySetBases m ops).values b).map AttributeValueTuple.default
        = (lookupValues m.values b).map AttributeValueTuple.default := by
  induction ops with
  | nil => intro m b; rfl
  | cons op rest ih =>
      intro m b
      show (lookupValues (applySetBases (setBase m op.1 op.2).2 rest).values b).map
            AttributeValueTuple.default = _
      rw [ih, lookupValues_setBase_default]

/-- C5: for every attribute present in the store and any prior sequence of
set_base calls, reset_base returns exactly the static default fixed at
construction, and a subsequent get_base returns that default. -/
theorem resetBase_restores_default :
    ∀ (entries ops : List (Attribute × ℚ)) (attr : Attribute)
      (t : AttributeValueTuple),
      lookupValues (buildManager entries).values attr = some t →
      (resetBase (applySetBases (buildManager entries) ops) attr).1
          = Except.ok t.default
        ∧ getBase (resetBase (applySetBases (buildManager entries) ops) attr).2 attr
          = Except.ok t.default := by
  intro entries ops attr t hlook
  have hdef := lookupValues_applySetBases_default ops (buildManager entries) attr
  rw [hlook] at hdef
  rcases Option.map_eq_some'.mp hdef with ⟨t', ht', hdef'⟩
  constructor
  · simp [resetBase, ht', hdef']
  · simp [resetBase, ht', getBase, lookupValues_storeBase, hdef']

/-- Witness for C5 at a concrete store: attribute 0 built with default 7,
then overridden by set_base to 42. -/
theorem resetBase_restores_default_witness :
    (resetBase (applySetBases (buildManager [(0, 7)]) [(0, 42)]) 0).1
        = Except.ok (7 : ℚ)
      ∧ getBase (resetBase (applySetBases (buildManager [(0, 7)]) [(0, 42)]) 0).2 0
        = Except.ok (7 : ℚ) :=
  resetBase_restores_default [(0, 7)] [(0, 42)] 0 ⟨7, 7⟩ rfl

/-- Witness for C4 at a concrete store: attribute 0 with base 3, one equipped
stack and a main-hand stack both without an attribute-modifier component. -/
theorem getModified_no_modifiers_eq_getBase_witness :
    getModified ⟨[(0, ⟨3, 4⟩)]⟩ 0 [(2, ⟨none⟩)] (some ⟨none⟩) []
      = getBase ⟨[(0, ⟨3, 4⟩)]⟩ 0 :=
  getModified_no_modifiers_eq_getBase ⟨[(0, ⟨3, 4⟩)]⟩ 0 [(2, ⟨none⟩)]
    (some ⟨none⟩) ⟨3, 4⟩ rfl
    (by intro s hs; simp at hs; rw [hs])
    (by intro mh h; cases h; rfl)

/-- C10: get_base, set_base, reset_base and get_modified return
AttributeNotFound exactly when the attribute key is absent from the store,
and on that error path no stored base value changes. -/
theorem attribute_store_error_iff_absent :
    ∀ (m : AttributeManager) (attr : Attribute) (v : ℚ)
      (equipment : List (Nat × ItemStack)) (mainHand : Option ItemStack)
      (effects : List (StatusEffect × Effect)),
      (getBase m attr = Except.error AttributeNoteFoundError.mk
          ↔ lookupValues m.values attr = none)
        ∧ ((setBase m attr v).1 = Except.error AttributeNoteFoundError.mk
          ↔ lookupValues m.values attr = none)
        ∧ ((resetBase m attr).1 = Except.error AttributeNoteFoundError.mk
          ↔ lookupValues m.values attr = none)
        ∧ (getModified m attr equipment mainHand effects
            = Except.error AttributeNoteFoundError.mk
          ↔ lookupValues m.values attr = none)
        ∧ (lookupValues m.values attr = none →
            (setBase m attr v).2 = m ∧ (resetBase m attr).2 = m) := by
  intro m attr v equipment mainHand effects
  cases h : lookupValues m.values attr with
  | none => simp [getBase, setBase, resetBase, getModified, h]
  | some t => simp [getBase, setBase, resetBase, getModified, h]

/-- Witness for C10 at a concrete store where attribute 9 is absent: the
error is returned and the store is unchanged. -/
theorem attribute_store_error_iff_absent_witness :
    (getBase ⟨[(0, ⟨3, 3⟩)]⟩ 9 = Except.error AttributeNoteFoundError.mk
        ↔ lookupValues [(0, ⟨3, 3⟩)] 9 = none)
      ∧ ((setBase ⟨[(0, ⟨3, 3⟩)]⟩ 9 1).2 = ⟨[(0, ⟨3, 3⟩)]⟩
        ∧ (resetBase ⟨[(0, ⟨3, 3⟩)]⟩ 9).2 = ⟨[(0, ⟨3, 3⟩)]⟩) :=
  ⟨(attribute_store_error_iff_absent ⟨[(0, ⟨3, 3⟩)]⟩ 9 1 [] none []).1,
   (attribute_store_error_iff_absent ⟨[(0, ⟨3, 3⟩)]⟩ 9 1 [] none []).2.2.2.2 rfl⟩

lemma applyItemModifiers_eq_applyModifierList (attr : Attribute) (base : ℚ)
    (slot : Nat) :
    ∀ (l : List Modifier) (modified : ℚ),
      applyItemModifiers attr base slot modified l
        = applyModifierList base modified
            ((l.filter
              (fun md => decide (md.type = attr ∧ isApplicable md.slot slot = true))).map
              (fun md => (md.operation, md.amount))) := by
  intro l
  induction l with
  | nil => intro modified; rfl
  | cons md rest ih =>
      intro modified
      rw [show applyItemModifiers attr base slot modified (md :: rest)
          = applyItemModifiers attr base slot
              (if md.type = attr ∧ isApplicable md.slot slot = true then
                applyOperation base modified md.operation md.amount
              else modified) rest from rfl]
      by_cases h : md.type = attr ∧ isApplicable md.slot slot = true
      · rw [if_pos h, ih, List.filter_cons, if_pos (by simpa using h),
          List.map_cons]
        rfl
      · rw [if_neg h, ih, List.filter_cons, if_neg (by simpa using h)]

lemma applyEquipment_eq_applyModifierList (attr : Attribute) (base : ℚ) :
    ∀ (L : List (Nat × ItemStack)) (modified : ℚ),
      applyEquipment attr base L modified
        = applyModifierList base modified
            (L.flatMap (appliedItemModifierList attr)) := by
  intro L
  induction L with
  | nil => intro modified; rfl
  | cons e rest ih =>
      intro modified
      have hstep :
          applyEquipment attr base (e :: rest) modified
            = applyEquipment attr base rest
                (applyModifierList base modified (appliedItemModifierList attr e)) := by
        cases hcomp : e.2.attributeModifiers with
        | none =>
            simp only [applyEquipment, List.foldl_cons, hcomp,
              appliedItemModifierList]
            rfl
        | some l =>
            simp only [applyEquipment, List.foldl_cons, hcomp,
              appliedItemModifierList]
            rw [← applyEquipment, ← applyItemModifiers_eq_applyModifierList]
            rfl
      rw [hstep, ih, List.flatMap_cons, applyModifierList_append]

lemma applyEffectModifiers_eq_applyModifierList (attr : Attribute) (base : ℚ)
    (se : StatusEffect × Effect) :
    ∀ (l : List EffectModifiers) (modified : ℚ),
      l.foldl
        (fun modified modifier =>
          if modifier.attr = attr then
            applyOperation base modified modifier.operation
              (modifier.baseValue * ((se.2.amplifier : ℚ) + 1))
          else modified)
        modified
        = applyModifierList base modified
            ((l.filter (fun md => decide (md.attr = attr))).map
              (fun md => (md.operation, md.baseValue * ((se.2.amplifier : ℚ) + 1)))) := by
  intro l
  induction l with
  | nil => intro modified; rfl
  | cons md rest ih =>
      intro modified
      rw [List.foldl_cons]
      by_cases h : md.attr = attr
      · rw [if_pos h, ih, List.filter_cons, if_pos (by simpa using h),
          List.map_cons]
        rfl
      · rw [if_neg h, ih, List.filter_cons, if_neg (by simpa using h)]

lemma applyEffects_eq_applyModifierList (attr : Attribute) (base : ℚ) :
    ∀ (effects : List (StatusEffect × Effect)) (modified : ℚ),
      applyEffects attr base effects modified
        = applyModifierList base modified
            (effects.flatMap (appliedEffectModifierList attr)) := by
  intro effects
  induction effects with
  | nil => intro modified; rfl
  | cons se rest ih =>
      intro modified
      have hstep :
          applyEffects attr base (se :: rest) modified
            = applyEffects attr base rest
                (applyModifierList base modified (appliedEffectModifierList attr se)) := by
        simp only [applyEffects, List.foldl_cons]
        rw [← applyEffects, applyEffectModifiers_eq_applyModifierList]
        rfl
      rw [hstep, ih, List.flatMap_cons, applyModifierList_append]

/-- C1 (amended): get_modified applies equipment modifiers by iterating the
equipment snapshot in the equipment container's own iteration order with the
optional implicit main-hand override appended after all equipment slots (at
slot index 0), not at a fixed slot-0 position; each applicable modifier is
applied immediately to the running value, and the final value is the fold of
the applicable modifiers in exactly that order, followed by the status-effect
modifiers. -/
theorem getModified_folds_equipment_then_mainHand :
    ∀ (m : AttributeManager) (attr : Attribute)
      (equipment : List (Nat × ItemStack)) (mainHand : Option ItemStack)
      (effects : List (StatusEffect × Effect)) (t : AttributeValueTuple),
      lookupValues m.values attr = some t →
      getModified m attr equipment mainHand effects
        = Except.ok (applyModifierList t.currentBaseValue t.currentBaseValue
            (modifierSequence attr equipment mainHand effects)) := by
  intro m attr equipment mainHand effects t hlook
  simp only [getModified, hlook, modifierSequence]
  rw [applyEquipment_eq_applyModifierList, applyEffects_eq_applyModifierList,
    applyModifierList_append]

/-- Witness for the amended C1 at a concrete configuration: base 10, an
off-hand stack with AddMultipliedTotal(1) and a main-hand override with
AddValue(+5). -/
theorem getModified_folds_equipment_then_mainHand_witness :
    getModified ⟨[(1, ⟨10, 10⟩)]⟩ 1
        [(1, ⟨some [⟨1, 1, Operation.addMultipliedTotal, AttributeModifierSlot.any⟩]⟩)]
        (some ⟨some [⟨1, 5, Operation.addValue, AttributeModifierSlot.any⟩]⟩) []
      = Except.ok (applyModifierList 10 10
          (modifierSequence 1
            [(1, ⟨some [⟨1, 1, Operation.addMultipliedTotal, AttributeModifierSlot.any⟩]⟩)]
            (some ⟨some [⟨1, 5, Operation.addValue, AttributeModifierSlot.any⟩]⟩) [])) :=
  getModified_folds_equipment_then_mainHand ⟨[(1, ⟨10, 10⟩)]⟩ 1
    [(1, ⟨some [⟨1, 1, Operation.addMultipliedTotal, AttributeModifierSlot.any⟩]⟩)]
    (some ⟨some [⟨1, 5, Operation.addValue, AttributeModifierSlot.any⟩]⟩) []
    ⟨10, 10⟩ rfl

/-- Counterexample to C1 as stated: with base 10, an off-hand
AddMultipliedTotal(1) stack and a main-hand override AddValue(+5), the code
resolves to 25 (override applied last), while the claimed fixed slot order
with the override at its slot-0 position yields 30. -/
theorem getModified_mainHand_slot0_order_cex :
    getModified ⟨[(1, ⟨10, 10⟩)]⟩ 1
        [(1, ⟨some [⟨1, 1, Operation.addMultipliedTotal, AttributeModifierSlot.any⟩]⟩)]
        (some ⟨some [⟨1, 5, Operation.addValue, AttributeModifierSlot.any⟩]⟩) []
      ≠ getModifiedFixedSlotOrder ⟨[(1, ⟨10, 10⟩)]⟩ 1
        [(1, ⟨some [⟨1, 1, Operation.addMultipliedTotal, AttributeModifierSlot.any⟩]⟩)]
        (some ⟨some [⟨1, 5, Operation.addValue, AttributeModifierSlot.any⟩]⟩) [] := by
  have h1 : getModified ⟨[(1, ⟨10, 10⟩)]⟩ 1
      [(1, ⟨some [⟨1, 1, Operation.addMultipliedTotal, AttributeModifierSlot.any⟩]⟩)]
      (some ⟨some [⟨1, 5, Operation.addValue, AttributeModifierSlot.any⟩]⟩) []
      = Except.ok 25 := by
    simp [getModified, lookupValues, mainHandEntry, applyEquipment,
      applyItemModifiers, applyEffects, applyOperation, isApplicable]
    norm_num
  have h2 : getModifiedFixedSlotOrder ⟨[(1, ⟨10, 10⟩)]⟩ 1
      [(1, ⟨some [⟨1, 1, Operation.addMultipliedTotal, AttributeModifierSlot.any⟩]⟩)]
      (some ⟨some [⟨1, 5, Operation.addValue, AttributeModifierSlot.any⟩]⟩) []
      = Except.ok 30 := by
    simp [getModifiedFixedSlotOrder, lookupValues, mainHandEntry,
      List.insertionSort, List.orderedInsert, applyEquipment,
      applyItemModifiers, applyEffects, applyOperation, isApplicable]
    norm_num
  rw [h1, h2]
  intro h
  exact absurd (Except.ok.inj h) (by norm_num)

/-- Coordinate axes (pumpkin-util Axis, a dependency crate not under src/). -/
inductive Axis where
  | x
  | y
  | z
deriving DecidableEq, Repr

/-- Modelled from the spec: pumpkin-util Axis::horizontal is not under src/;
the spec fixes the Y pass first and the horizontal passes as X then Z
(engine-defined horizontal axis order). -/
def Axis.horizontal : List Axis := [Axis.x, Axis.z]

/-- A three-component f64 vector (pumpkin-util Vector3), embedded over ℚ. -/
structure Vec3 where
  x : ℚ
  y : ℚ
  z : ℚ
deriving DecidableEq, Repr

def Vec3.lengthSquared (v : Vec3) : ℚ :=
  v.x * v.x + v.y * v.y + v.z * v.z

def Vec3.getAxis (v : Vec3) : Axis → ℚ
  | Axis.x => v.x
  | Axis.y => v.y
  | Axis.z => v.z

def Vec3.setAxis (v : Vec3) (a : Axis) (q : ℚ) : Vec3 :=
  match a with
  | Axis.x => { v with x := q }
  | Axis.y => { v with y := q }
  | Axis.z => { v with z := q }

def Vec3.add (a b : Vec3) : Vec3 :=
  ⟨a.x + b.x, a.y + b.y, a.z + b.z⟩

def Vec3.scale (a : Vec3) (q : ℚ) : Vec3 :=
  ⟨a.x * q, a.y * q, a.z * q⟩

/-- An integer block cell position (pumpkin-util BlockPos). -/
structure BlockPos where
  x : ℤ
  y : ℤ
  z : ℤ
deriving DecidableEq, Repr

/-- An axis-aligned bounding box (pumpkin-util BoundingBox). -/
structure BoundingBox where
  min : Vec3
  max : Vec3
deriving DecidableEq, Repr

/-- Modelled from the spec: pumpkin-util BoundingBox::stretch is not under
src/; the swept bounding box is the current box extended by the full
requested delta (each face moved outward along the delta's direction). -/
def BoundingBox.stretch (b : BoundingBox) (m : Vec3) : BoundingBox :=
  ⟨⟨b.min.x + Min.min m.x 0, b.min.y + Min.min m.y 0, b.min.z + Min.min m.z 0⟩,
   ⟨b.max.x + Max.max m.x 0, b.max.y + Max.max m.y 0, b.max.z + Max.max m.z 0⟩⟩

/-- Modelled from the spec: BoundingBox::calculate_collision_time
(pumpkin-util, not under src/) returns the earliest collision time along one
axis, bounded by the running max_time, or none.  The movement adjustment is
verified for every such oracle, so its internals are left abstract. -/
abbrev CollisionTimeFn :=
  BoundingBox → BoundingBox → Vec3 → Axis → ℚ → Option ℚ

/-- The collision flags adjust_movement_for_collisions stores: on_ground,
supporting_block_pos and horizontal_collision. -/
structure CollisionFlags where
  onGround : Bool
  supportingBlockPos : Option BlockPos
  horizontalCollision : Bool
deriving DecidableEq, Repr

/-- The Y-axis loop of adjust_movement_for_collisions: fold over the
collision shapes (each paired with its owning block position, as the
run-length encoded block_positions iterator pairs them in the source),
tracking the running max_time and the last responsible block position. -/
def yCollisionFold (boundingBox : BoundingBox) (movement : Vec3)
    (collisions : List (BoundingBox × BlockPos)) (ct : CollisionTimeFn) :
    ℚ × Option BlockPos :=
  collisions.foldl
    (fun acc c =>
      match ct boundingBox c.1 movement Axis.y acc.1 with
      | some collisionTime => (collisionTime, some c.2)
      | none => acc)
    (1, none)

/-- The Y-axis pass: run only when the requested Y component is non-zero;
the Y component is scaled only when max_time moved off exactly 1, and the
on-ground flag and supporting block are computed from the fold. -/
def yPass (boundingBox : BoundingBox) (movement : Vec3)
    (collisions : List (BoundingBox × BlockPos)) (ct : CollisionTimeFn) :
    Vec3 × (Bool × Option BlockPos) :=
  if movement.getAxis Axis.y ≠ 0 then
    let r := yCollisionFold boundingBox movement collisions ct
    let adjusted :=
      if r.1 ≠ 1 then
        movement.setAxis Axis.y (movement.getAxis Axis.y * r.1)
      else movement
    (adjusted, (r.2.isSome, r.2))
  else (movement, (false, none))

/-- One horizontal-axis loop: the minimum collision time along `axis`
against the current adjusted movement. -/
def axisCollisionFold (boundingBox : BoundingBox) (adjusted : Vec3)
    (collisions : List (BoundingBox × BlockPos)) (ct : CollisionTimeFn)
    (axis : Axis) : ℚ :=
  collisions.foldl
    (fun maxTime c =>
      match ct boundingBox c.1 adjusted axis maxTime with
      | some collisionTime => collisionTime
      | none => maxTime)
    1

/-- One horizontal pass of adjust_movement_for_collisions over `axis`:
skipped when the originally requested movement has a zero component on that
axis; otherwise the axis component is scaled and the horizontal-collision
flag raised exactly when max_time moved off exactly 1. -/
def horizontalPass (boundingBox : BoundingBox) (movement : Vec3)
    (collisions : List (BoundingBox × BlockPos)) (ct : CollisionTimeFn)
    (axis : Axis) (state : Vec3 × Bool) : Vec3 × Bool :=
  if movement.getAxis axis = 0 then state
  else
    let maxTime := axisCollisionFold boundingBox state.1 collisions ct axis
    if maxTime ≠ 1 then
      (state.1.setAxis axis (state.1.getAxis axis * maxTime), true)
    else state

/-- The passes of adjust_movement_for_collisions run once the world returned
a non-empty collision shape list. -/
def adjustWithCollisions (boundingBox : BoundingBox) (movement : Vec3)
    (collisions : List (BoundingBox × BlockPos)) (ct : CollisionTimeFn) :
    Vec3 × CollisionFlags :=
  if collisions = [] then (movement, ⟨false, none, false⟩)
  else
    let y := yPass boundingBox movement collisions ct
    let h := Axis.horizontal.foldl
      (fun state axis => horizontalPass boundingBox movement collisions ct axis state)
      (y.1, false)
    (h.1, ⟨y.2.1, y.2.2, h.2⟩)

/-- Entity::adjust_movement_for_collisions.  The collision flags are cleared
unconditionally at entry (before the zero check and before any world query);
the returned flags are the ones stored by the call.  The world geometry
query get_block_collisions is a parameter: the zero-delta path returns
before it is consulted. -/
def adjustMovementForCollisions (boundingBox : BoundingBox) (movement : Vec3)
    (getBlockCollisions : BoundingBox → List (BoundingBox × BlockPos))
    (ct : CollisionTimeFn) : Vec3 × CollisionFlags :=
  if movement.lengthSquared = 0 then (movement, ⟨false, none, false⟩)
  else
    adjustWithCollisions boundingBox movement
      (getBlockCollisions (boundingBox.stretch movement)) ct

/-- Modelled from the spec (claim C8): an adjusted delta is collision-free
from a bounding box when no axis sweep over the collision shapes of its
swept volume finds a collision time, i.e. every per-axis max_time stays
exactly 1. -/
def collisionFree (boundingBox : BoundingBox) (movement : Vec3)
    (getBlockCollisions : BoundingBox → List (BoundingBox × BlockPos))
    (ct : CollisionTimeFn) : Prop :=
  (yCollisionFold boundingBox movement
      (getBlockCollisions (boundingBox.stretch movement)) ct).1 = 1
    ∧ axisCollisionFold boundingBox movement
      (getBlockCollisions (boundingBox.stretch movement)) ct Axis.x = 1
    ∧ axisCollisionFold boundingBox movement
      (getBlockCollisions (boundingBox.stretch movement)) ct Axis.z = 1

/-- C6: for a zero requested delta, adjust_movement_for_collisions returns
the delta unchanged with all collision flags cleared (on-ground false,
supporting block none, horizontal collision false), for every world geometry
oracle — the result does not depend on get_block_collisions, which is never
consulted on this path. -/
theorem adjustMovement_zero_delta :
    ∀ (boundingBox : BoundingBox)
      (getBlockCollisions : BoundingBox → List (BoundingBox × BlockPos))
      (ct : CollisionTimeFn) (movement : Vec3),
      movement = ⟨0, 0, 0⟩ →
      adjustMovementForCollisions boundingBox movement getBlockCollisions ct
        = (movement, ⟨false, none, false⟩) := by
  intro boundingBox getBlockCollisions ct movement h
  subst h
  simp [adjustMovementForCollisions, Vec3.lengthSquared]

/-- Witness for C6 at a concrete box, oracle and the zero vector. -/
theorem adjustMovement_zero_delta_witness :
    adjustMovementForCollisions ⟨⟨0, 0, 0⟩, ⟨1, 1, 1⟩⟩ ⟨0, 0, 0⟩
        (fun _ => [(⟨⟨2, 2, 2⟩, ⟨3, 3, 3⟩⟩, ⟨2, 2, 2⟩)])
        (fun _ _ _ _ _ => none)
      = (⟨0, 0, 0⟩, ⟨false, none, false⟩) :=
  adjustMovement_zero_delta ⟨⟨0, 0, 0⟩, ⟨1, 1, 1⟩⟩
    (fun _ => [(⟨⟨2, 2, 2⟩, ⟨3, 3, 3⟩⟩, ⟨2, 2, 2⟩)])
    (fun _ _ _ _ _ => none) ⟨0, 0, 0⟩ rfl

/-- C7: in each axis pass, if the per-axis max_time never moves off exactly
1 (exact equality against 1.0), that axis's movement component is returned
unchanged and the horizontal-collision flag is not raised by that axis. -/
theorem axis_pass_max_time_one_is_noop :
    ∀ (boundingBox : BoundingBox) (movement : Vec3)
      (collisions : List (BoundingBox × BlockPos)) (ct : CollisionTimeFn)
      (axis : Axis) (state : Vec3 × Bool),
      axisCollisionFold boundingBox state.1 collisions ct axis = 1 →
      (yCollisionFold boundingBox movement collisions ct).1 = 1 →
      horizontalPass boundingBox movement collisions ct axis state = state
        ∧ (yPass boundingBox movement collisions ct).1 = movement := by
  intro boundingBox movement collisions ct axis state hH hY
  constructor
  · simp [horizontalPass, hH]
  · simp [yPass, hY]
    split <;> rfl

/-- Witness for C7: with no collision shapes, both folds stay at 1 and the
passes leave the movement untouched. -/
theorem axis_pass_max_time_one_is_noop_witness :
    horizontalPass ⟨⟨0, 0, 0⟩, ⟨1, 1, 1⟩⟩ ⟨1, 2, 3⟩ [] (fun _ _ _ _ _ => none)
        Axis.x (⟨1, 2, 3⟩, false) = (⟨1, 2, 3⟩, false)
      ∧ (yPass ⟨⟨0, 0, 0⟩, ⟨1, 1, 1⟩⟩ ⟨1, 2, 3⟩ [] (fun _ _ _ _ _ => none)).1
        = ⟨1, 2, 3⟩ :=
  axis_pass_max_time_one_is_noop ⟨⟨0, 0, 0⟩, ⟨1, 1, 1⟩⟩ ⟨1, 2, 3⟩ []
    (fun _ _ _ _ _ => none) Axis.x (⟨1, 2, 3⟩, false) rfl rfl

lemma adjust_collisionFree_fixed (boundingBox : BoundingBox) (movement : Vec3)
    (getBlockCollisions : BoundingBox → List (BoundingBox × BlockPos))
    (ct : CollisionTimeFn)
    (h : collisionFree boundingBox movement getBlockCollisions ct) :
    (adjustMovementForCollisions boundingBox movement getBlockCollisions ct).1
      = movement := by
  rcases h with ⟨hy, hx, hz⟩
  unfold adjustMovementForCollisions
  by_cases hzero : movement.lengthSquared = 0
  · simp [hzero]
  · simp only [hzero, if_false, if_neg]
    unfold adjustWithCollisions
    by_cases hnil :
        getBlockCollisions (boundingBox.stretch movement) = []
    · simp [hnil]
    · have hyp : (yPass boundingBox movement
          (getBlockCollisions (boundingBox.stretch movement)) ct).1 = movement := by
        simp [yPass, hy]
        split <;> rfl
      simp only [hnil, if_neg, if_false, Axis.horizontal, List.foldl_cons,
        List.foldl_nil]
      rw [hyp]
      have hxp : horizontalPass boundingBox movement
          (getBlockCollisions (boundingBox.stretch movement)) ct Axis.x
          (movement, false) = (movement, false) := by
        simp [horizontalPass, hx]
      have hzp : horizontalPass boundingBox movement
          (getBlockCollisions (boundingBox.stretch movement)) ct Axis.z
          (movement, false) = (movement, false) := by
        simp [horizontalPass, hz]
      rw [hxp, hzp]

/-- C8: if a first adjust_movement call returns an adjusted delta that is
collision-free (no axis sweep from the resulting position finds a collision
time), then a second call with that already-adjusted delta returns it
unchanged, with no shortening on any axis. -/
theorem adjustMovement_idempotent_on_collisionFree :
    ∀ (boundingBox resultBox : BoundingBox) (requested : Vec3)
      (getBlockCollisions : BoundingBox → List (BoundingBox × BlockPos))
      (ct : CollisionTimeFn),
      collisionFree resultBox
          (adjustMovementForCollisions boundingBox requested getBlockCollisions ct).1
          getBlockCollisions ct →
      (adjustMovementForCollisions resultBox
          (adjustMovementForCollisions boundingBox requested getBlockCollisions ct).1
          getBlockCollisions ct).1
        = (adjustMovementForCollisions boundingBox requested getBlockCollisions ct).1 :=
  fun _ resultBox _ getBlockCollisions ct h =>
    adjust_collisionFree_fixed resultBox _ getBlockCollisions ct h

/-- Witness for C8: an empty world keeps every sweep at 1, so the second
call returns the first call's result unchanged. -/
theorem adjustMovement_idempotent_on_collisionFree_witness :
    (adjustMovementForCollisions ⟨⟨0, 0, 0⟩, ⟨1, 1, 1⟩⟩
        (adjustMovementForCollisions ⟨⟨0, 0, 0⟩, ⟨1, 1, 1⟩⟩ ⟨1, 0, 0⟩
          (fun _ => []) (fun _ _ _ _ _ => none)).1
        (fun _ => []) (fun _ _ _ _ _ => none)).1
      = (adjustMovementForCollisions ⟨⟨0, 0, 0⟩, ⟨1, 1, 1⟩⟩ ⟨1, 0, 0⟩
          (fun _ => []) (fun _ _ _ _ _ => none)).1 :=
  adjustMovement_idempotent_on_collisionFree ⟨⟨0, 0, 0⟩, ⟨1, 1, 1⟩⟩
    ⟨⟨0, 0, 0⟩, ⟨1, 1, 1⟩⟩ ⟨1, 0, 0⟩ (fun _ => []) (fun _ _ _ _ _ => none)
    ⟨rfl, rfl, rfl⟩

/-- Fluid registry ids (pumpkin-data Fluid constants EMPTY, WATER,
FLOWING_WATER, LAVA, FLOWING_LAVA); only their distinctness matters. -/
def Fluid.emptyId : Nat := 0

def Fluid.waterId : Nat := 1

def Fluid.flowingWaterId : Nat := 2

def Fluid.lavaId : Nat := 3

def Fluid.flowingLavaId : Nat := 4

/-- What update_fluid_state reads per cell from get_fluid_and_fluid_state:
the fluid's registry id and the fluid state's height. -/
structure FluidCell where
  id : Nat
  height : ℚ
deriving DecidableEq, Repr

/-- The lava-category test of update_fluid_state:
`fluid.id == Fluid::FLOWING_LAVA.id || fluid.id == Fluid::LAVA.id`. -/
def isLavaFluid (id : Nat) : Bool :=
  id == Fluid.flowingLavaId || id == Fluid.lavaId

/-- The accumulator of the update_fluid_state scan loop; each pair is the
two-element array indexed [water, lava] of the source. -/
structure FluidScanAcc where
  fluidPush : Vec3 × Vec3
  fluidN : Nat × Nat
  inFluid : Bool × Bool
  fluidHeight : ℚ × ℚ
deriving DecidableEq, Repr

/-- Index a [water, lava] pair by the lava flag. -/
def pairGet {α : Type} (p : α × α) (lava : Bool) : α :=
  bif lava then p.2 else p.1

/-- Update the component of a [water, lava] pair selected by the lava flag. -/
def pairSet {α : Type} (p : α × α) (lava : Bool) (v : α) : α × α :=
  bif lava then (p.1, v) else (v, p.2)

/-- The marginal submersion height of a cell:
`f64::from(state.height) + f64::from(y) - bounding_box.min.y`. -/
def marginalHeightAt (boundingBox : BoundingBox)
    (getFluid : BlockPos → FluidCell) (pos : BlockPos) : ℚ :=
  (getFluid pos).height + (pos.y : ℚ) - boundingBox.min.y

/-- One cell of the update_fluid_state triple loop: skip empty fluids and
negative marginal heights, otherwise record the per-category maximum height
and submersion flag, and if the entity is fluid-pushable accumulate the push
vector (scaled down by the updated height when shallower than 0.4). -/
def fluidScanStep (boundingBox : BoundingBox) (isPushed : Bool)
    (getFluid : BlockPos → FluidCell) (getFluidVelocity : BlockPos → Vec3)
    (acc : FluidScanAcc) (pos : BlockPos) : FluidScanAcc :=
  let fc := getFluid pos
  if fc.id = Fluid.emptyId then acc
  else
    let marginalHeight := fc.height + (pos.y : ℚ) - boundingBox.min.y
    if marginalHeight < 0 then acc
    else
      let lava := isLavaFluid fc.id
      let fluidHeightUpd :=
        pairSet acc.fluidHeight lava
          (Max.max (pairGet acc.fluidHeight lava) marginalHeight)
      let inFluidUpd := pairSet acc.inFluid lava true
      if isPushed = false then
        { acc with fluidHeight := fluidHeightUpd, inFluid := inFluidUpd }
      else
        let fluidVelo := getFluidVelocity pos
        let fluidVelo :=
          if pairGet fluidHeightUpd lava < 0.4 then
            fluidVelo.scale (pairGet fluidHeightUpd lava)
          else fluidVelo
        { fluidPush :=
            pairSet acc.fluidPush lava
              (Vec3.add (pairGet acc.fluidPush lava) fluidVelo),
          fluidN := pairSet acc.fluidN lava (pairGet acc.fluidN lava + 1),
          inFluid := inFluidUpd,
          fluidHeight := fluidHeightUpd }

/-- The inclusive integer range lo..=hi as a list. -/
def intRangeIncl (lo hi : ℤ) : List ℤ :=
  (List.range (hi + 1 - lo).toNat).map (fun i => lo + (i : ℤ))

/-- Modelled from the spec: BoundingBox::min_block_pos / max_block_pos
(pumpkin-util, not under src/): the integer cell coordinates of the box
corners, the floor of each coordinate. -/
def BoundingBox.minBlockPos (b : BoundingBox) : BlockPos :=
  ⟨⌊b.min.x⌋, ⌊b.min.y⌋, ⌊b.min.z⌋⟩

def BoundingBox.maxBlockPos (b : BoundingBox) : BlockPos :=
  ⟨⌊b.max.x⌋, ⌊b.max.y⌋, ⌊b.max.z⌋⟩

/-- Modelled from the spec: BoundingBox::expand (pumpkin-util, not under
src/): grow (or, with negative arguments, shrink) the box by the given
amount on each side of each axis. -/
def BoundingBox.expand (b : BoundingBox) (dx dy dz : ℚ) : BoundingBox :=
  ⟨⟨b.min.x - dx, b.min.y - dy, b.min.z - dz⟩,
   ⟨b.max.x + dx, b.max.y + dy, b.max.z + dz⟩⟩

/-- The 0.001-shrunk bounding box the scan iterates:
`self.bounding_box.load().expand(-0.001, -0.001, -0.001)`. -/
def shrunkBox (rawBoundingBox : BoundingBox) : BoundingBox :=
  rawBoundingBox.expand (-0.001) (-0.001) (-0.001)

/-- The x-outer, y-middle, z-inner triple loop cell order of
update_fluid_state over min_block_pos..=max_block_pos. -/
def cellList (mn mx : BlockPos) : List BlockPos :=
  (intRangeIncl mn.x mx.x).flatMap (fun x =>
    (intRangeIncl mn.y mx.y).flatMap (fun y =>
      (intRangeIncl mn.z mx.z).map (fun z => ⟨x, y, z⟩)))

/-- The block cells visited by the update_fluid_state scan. -/
def overlappedCells (rawBoundingBox : BoundingBox) : List BlockPos :=
  cellList (shrunkBox rawBoundingBox).minBlockPos
    (shrunkBox rawBoundingBox).maxBlockPos

/-- Entity::update_fluid_state.  The returned accumulator carries exactly the
values the source then stores: fluidHeight.1 into water_height, inFluid.1
into touching_water, fluidHeight.2 into lava_height, inFluid.2 into
touching_lava, and the push totals later handed to push_by_fluid (the
fall-distance updates, particle hook and per-fluid collision callbacks are
external side effects outside these claims). -/
def updateFluidState (rawBoundingBox : BoundingBox) (isPushed : Bool)
    (getFluid : BlockPos → FluidCell) (getFluidVelocity : BlockPos → Vec3) :
    FluidScanAcc :=
  (overlappedCells rawBoundingBox).foldl
    (fluidScanStep (shrunkBox rawBoundingBox) isPushed getFluid getFluidVelocity)
    ⟨(⟨0, 0, 0⟩, ⟨0, 0, 0⟩), (0, 0), (false, false), (0, 0)⟩

/-- The marginal heights of the cells in `L` that pass the non-negativity
filter of the scan. -/
def nonNegMarginalsOf (boundingBox : BoundingBox)
    (getFluid : BlockPos → FluidCell) (L : List BlockPos) : List ℚ :=
  (L.filter (fun p => decide (0 ≤ marginalHeightAt boundingBox getFluid p))).map
    (marginalHeightAt boundingBox getFluid)

/-- The non-negative marginal heights over the cells the scan visits. -/
def nonNegMarginalHeights (rawBoundingBox : BoundingBox)
    (getFluid : BlockPos → FluidCell) : List ℚ :=
  nonNegMarginalsOf (shrunkBox rawBoundingBox) getFluid
    (overlappedCells rawBoundingBox)

lemma foldl_max_init_le (L : List ℚ) : ∀ a : ℚ, a ≤ L.foldl Max.max a := by
  induction L with
  | nil => intro a; exact le_refl a
  | cons x t ih =>
      intro a
      exact le_trans (le_max_left a x) (ih (Max.max a x))

lemma foldl_max_le_of_mem (L : List ℚ) :
    ∀ (a q : ℚ), q ∈ L → q ≤ L.foldl Max.max a := by
  induction L with
  | nil => intro a q hq; exact absurd hq (List.not_mem_nil q)
  | cons x t ih =>
      intro a q hq
      rcases List.mem_cons.mp hq with rfl | hq
      · exact le_trans (le_max_right a q) (foldl_max_init_le t (Max.max a q))
      · exact ih (Max.max a x) q hq

lemma foldl_max_mem_or_init (L : List ℚ) :
    ∀ a : ℚ, L.foldl Max.max a = a ∨ L.foldl Max.max a ∈ L := by
  induction L with
  | nil => intro a; exact Or.inl rfl
  | cons x t ih =>
      intro a
      rcases ih (Max.max a x) with h | h
      · rcases max_choice a x with hx | hx
        · left
          rw [List.foldl_cons, h, hx]
        · right
          rw [List.foldl_cons, h, hx]
          exact List.mem_cons_self x t
      · right
        rw [List.foldl_cons]
        exact List.mem_cons_of_mem x h

lemma fluidScan_water_fold (boundingBox : BoundingBox) (isPushed : Bool)
    (getFluid : BlockPos → FluidCell) (getFluidVelocity : BlockPos → Vec3) :
    ∀ (L : List BlockPos) (acc : FluidScanAcc),
      (∀ p ∈ L, (getFluid p).id ≠ Fluid.emptyId
        ∧ isLavaFluid (getFluid p).id = false) →
      (L.foldl (fluidScanStep boundingBox isPushed getFluid getFluidVelocity)
          acc).inFluid.2 = acc.inFluid.2
        ∧ (L.foldl (fluidScanStep boundingBox isPushed getFluid getFluidVelocity)
          acc).fluidHeight.2 = acc.fluidHeight.2
        ∧ (L.foldl (fluidScanStep boundingBox isPushed getFluid getFluidVelocity)
          acc).fluidHeight.1
          = (nonNegMarginalsOf boundingBox getFluid L).foldl Max.max
              acc.fluidHeight.1
        ∧ (L.foldl (fluidScanStep boundingBox isPushed getFluid getFluidVelocity)
          acc).inFluid.1
          = (acc.inFluid.1
              || !(nonNegMarginalsOf boundingBox getFluid L).isEmpty) := by
  intro L
  induction L with
  | nil =>
      intro acc _
      refine ⟨rfl, rfl, rfl, ?_⟩
      simp [nonNegMarginalsOf]
  | cons p rest ih =>
      intro acc h
      have hp := h p (List.mem_cons_self p rest)
      have hrest : ∀ q ∈ rest, (getFluid q).id ≠ Fluid.emptyId
          ∧ isLavaFluid (getFluid q).id = false :=
        fun q hq => h q (List.mem_cons_of_mem p hq)
      by_cases hm : marginalHeightAt boundingBox getFluid p < 0
      · have hstep : fluidScanStep boundingBox isPushed getFluid
            getFluidVelocity acc p = acc := by
          have hm' : (getFluid p).height + ((p.y : ℚ)) - boundingBox.min.y < 0 := hm
          simp [fluidScanStep, hp.1, hm']
        have hfil : nonNegMarginalsOf boundingBox getFluid (p :: rest)
            = nonNegMarginalsOf boundingBox getFluid rest := by
          simp [nonNegMarginalsOf, List.filter_cons, not_le.mpr hm]
        simp only [List.foldl_cons, hstep, hfil]
        exact ih acc hrest
      · have hm0 : (0 : ℚ) ≤ marginalHeightAt boundingBox getFluid p :=
          not_lt.mp hm
        have hm' : ¬ ((getFluid p).height + ((p.y : ℚ)) - boundingBox.min.y < 0) := hm
        have hstepIn : (fluidScanStep boundingBox isPushed getFluid
            getFluidVelocity acc p).inFluid = (true, acc.inFluid.2) := by
          cases isPushed <;>
            simp [fluidScanStep, hp.1, hm', hp.2, pairSet, pairGet]
        have hstepHeight : (fluidScanStep boundingBox isPushed getFluid
            getFluidVelocity acc p).fluidHeight
            = (Max.max acc.fluidHeight.1 (marginalHeightAt boundingBox getFluid p),
               acc.fluidHeight.2) := by
          cases isPushed <;>
            simp [fluidScanStep, hp.1, hm', hp.2, pairSet, pairGet,
              marginalHeightAt]
        have hfil : nonNegMarginalsOf boundingBox getFluid (p :: rest)
            = marginalHeightAt boundingBox getFluid p
              :: nonNegMarginalsOf boundingBox getFluid rest := by
          simp [nonNegMarginalsOf, List.filter_cons, hm0]
        obtain ⟨ih1, ih2, ih3, ih4⟩ :=
          ih (fluidScanStep boundingBox isPushed getFluid getFluidVelocity acc p)
            hrest
        refine ⟨?_, ?_, ?_, ?_⟩
        · rw [List.foldl_cons, ih1, hstepIn]
        · rw [List.foldl_cons, ih2, hstepHeight]
        · rw [List.foldl_cons, ih3, hstepHeight, hfil, List.foldl_cons]
        · rw [List.foldl_cons, ih4, hstepIn, hfil]
          simp

/-- C9 (amended): after the fluid scan, for an entity whose shrunk bounding
box overlaps only water fluid cells (no lava), provided at least one
overlapped cell has non-negative marginal height, touching-water is true,
touching-lava is false, and water_height equals the maximum of the
non-negative marginal heights of the overlapped cells. -/
theorem fluidScan_only_water_flags_and_height :
    ∀ (rawBoundingBox : BoundingBox) (isPushed : Bool)
      (getFluid : BlockPos → FluidCell) (getFluidVelocity : BlockPos → Vec3),
      (∀ p ∈ overlappedCells rawBoundingBox,
        (getFluid p).id ≠ Fluid.emptyId ∧ isLavaFluid (getFluid p).id = false) →
      (∃ p ∈ overlappedCells rawBoundingBox,
        0 ≤ marginalHeightAt (shrunkBox rawBoundingBox) getFluid p) →
      (updateFluidState rawBoundingBox isPushed getFluid
          getFluidVelocity).inFluid.1 = true
        ∧ (updateFluidState rawBoundingBox isPushed getFluid
          getFluidVelocity).inFluid.2 = false
        ∧ (updateFluidState rawBoundingBox isPushed getFluid
          getFluidVelocity).fluidHeight.1
            ∈ nonNegMarginalHeights rawBoundingBox getFluid
        ∧ ∀ q ∈ nonNegMarginalHeights rawBoundingBox getFluid,
            q ≤ (updateFluidState rawBoundingBox isPushed getFluid
              getFluidVelocity).fluidHeight.1 := by
  intro rawBoundingBox isPushed getFluid getFluidVelocity hOnly hSome
  obtain ⟨p, hpmem, hp0⟩ := hSome
  have hfold := fluidScan_water_fold (shrunkBox rawBoundingBox) isPushed
    getFluid getFluidVelocity (overlappedCells rawBoundingBox)
    ⟨(⟨0, 0, 0⟩, ⟨0, 0, 0⟩), (0, 0), (false, false), (0, 0)⟩ hOnly
  obtain ⟨h2, _, h1, hin⟩ := hfold
  have hpM : marginalHeightAt (shrunkBox rawBoundingBox) getFluid p
      ∈ nonNegMarginalHeights rawBoundingBox getFluid :=
    List.mem_map.mpr ⟨p, List.mem_filter.mpr ⟨hpmem, by simpa using hp0⟩, rfl⟩
  have hne : (nonNegMarginalHeights rawBoundingBox getFluid).isEmpty = false := by
    cases hM : nonNegMarginalHeights rawBoundingBox getFluid with
    | nil => rw [hM] at hpM; exact absurd hpM (List.not_mem_nil _)
    | cons a t => rfl
  refine ⟨?_, ?_, ?_, ?_⟩
  · show (_ : FluidScanAcc).inFluid.1 = true
    rw [show (updateFluidState rawBoundingBox isPushed getFluid
        getFluidVelocity).inFluid.1
        = (false || !(nonNegMarginalHeights rawBoundingBox getFluid).isEmpty)
      from hin, hne]
    rfl
  · exact h2
  · rcases foldl_max_mem_or_init
        (nonNegMarginalHeights rawBoundingBox getFluid) 0 with hc | hc
    · rw [show (updateFluidState rawBoundingBox isPushed getFluid
          getFluidVelocity).fluidHeight.1
          = (nonNegMarginalHeights rawBoundingBox getFluid).foldl Max.max 0
        from h1]
      rw [hc]
      have hle := foldl_max_le_of_mem
        (nonNegMarginalHeights rawBoundingBox getFluid) 0
        (marginalHeightAt (shrunkBox rawBoundingBox) getFluid p) hpM
      rw [hc] at hle
      have : marginalHeightAt (shrunkBox rawBoundingBox) getFluid p = 0 :=
        le_antisymm hle hp0
      rw [← this]
      exact hpM
    · rw [show (updateFluidState rawBoundingBox isPushed getFluid
          getFluidVelocity).fluidHeight.1
          = (nonNegMarginalHeights rawBoundingBox getFluid).foldl Max.max 0
        from h1]
      exact hc
  · intro q hq
    rw [show (updateFluidState rawBoundingBox isPushed getFluid
        getFluidVelocity).fluidHeight.1
        = (nonNegMarginalHeights rawBoundingBox getFluid).foldl Max.max 0
      from h1]
    exact foldl_max_le_of_mem _ 0 q hq

/-- Counterexample to C9 as stated: a box spanning a single cell whose water
surface (height 0.5, so surface at y = 5.5) lies below the box bottom
(y = 5.9): every overlapped cell holds water, yet the marginal height is
negative, so touching-water stays false. -/
theorem fluidScan_only_water_cex :
    (∀ p ∈ overlappedCells ⟨⟨1/2, 59/10, 1/2⟩, ⟨13/25, 119/20, 13/25⟩⟩,
      ((fun (_ : BlockPos) => (⟨Fluid.waterId, 1/2⟩ : FluidCell)) p).id
          ≠ Fluid.emptyId
        ∧ isLavaFluid
            ((fun (_ : BlockPos) => (⟨Fluid.waterId, 1/2⟩ : FluidCell)) p).id
          = false)
      ∧ (updateFluidState ⟨⟨1/2, 59/10, 1/2⟩, ⟨13/25, 119/20, 13/25⟩⟩ false
          (fun _ => ⟨Fluid.waterId, 1/2⟩) (fun _ => ⟨0, 0, 0⟩)).inFluid.1
        = false := by
  have hcells : overlappedCells ⟨⟨1/2, 59/10, 1/2⟩, ⟨13/25, 119/20, 13/25⟩⟩
      = [⟨0, 5, 0⟩] := by
    norm_num [overlappedCells, shrunkBox, BoundingBox.expand,
      BoundingBox.minBlockPos, BoundingBox.maxBlockPos, cellList, intRangeIncl,
      List.range_succ]
  constructor
  · intro p _
    constructor
    · norm_num [Fluid.waterId, Fluid.emptyId]
    · norm_num [isLavaFluid, Fluid.waterId, Fluid.flowingLavaId, Fluid.lavaId]
  · rw [updateFluidState, hcells]
    norm_num [fluidScanStep, shrunkBox, BoundingBox.expand, Fluid.waterId,
      Fluid.emptyId]

/-- Witness for the amended C9: a half-cube box inside a full water cell. -/
theorem fluidScan_only_water_flags_and_height_witness :
    (updateFluidState ⟨⟨0, 0, 0⟩, ⟨1/2, 1/2, 1/2⟩⟩ false
        (fun _ => ⟨Fluid.waterId, 1⟩) (fun _ => ⟨0, 0, 0⟩)).inFluid.1 = true
      ∧ (updateFluidState ⟨⟨0, 0, 0⟩, ⟨1/2, 1/2, 1/2⟩⟩ false
        (fun _ => ⟨Fluid.waterId, 1⟩) (fun _ => ⟨0, 0, 0⟩)).inFluid.2 = false
      ∧ (updateFluidState ⟨⟨0, 0, 0⟩, ⟨1/2, 1/2, 1/2⟩⟩ false
        (fun _ => ⟨Fluid.waterId, 1⟩) (fun _ => ⟨0, 0, 0⟩)).fluidHeight.1
          ∈ nonNegMarginalHeights ⟨⟨0, 0, 0⟩, ⟨1/2, 1/2, 1/2⟩⟩
            (fun _ => ⟨Fluid.waterId, 1⟩)
      ∧ ∀ q ∈ nonNegMarginalHeights ⟨⟨0, 0, 0⟩, ⟨1/2, 1/2, 1/2⟩⟩
            (fun _ => ⟨Fluid.waterId, 1⟩),
          q ≤ (updateFluidState ⟨⟨0, 0, 0⟩, ⟨1/2, 1/2, 1/2⟩⟩ false
            (fun _ => ⟨Fluid.waterId, 1⟩) (fun _ => ⟨0, 0, 0⟩)).fluidHeight.1 :=
  fluidScan_only_water_flags_and_height ⟨⟨0, 0, 0⟩, ⟨1/2, 1/2, 1/2⟩⟩ false
    (fun _ => ⟨Fluid.waterId, 1⟩) (fun _ => ⟨0, 0, 0⟩)
    (by
      intro p _
      constructor
      · norm_num [Fluid.waterId, Fluid.emptyId]
      · norm_num [isLavaFluid, Fluid.waterId, Fluid.flowingLavaId, Fluid.lavaId])
    (by
      refine ⟨⟨0, 0, 0⟩, ?_, ?_⟩
      · rw [show overlappedCells ⟨⟨0, 0, 0⟩, ⟨1/2, 1/2, 1/2⟩⟩ = [⟨0, 0, 0⟩] by
          norm_num [overlappedCells, shrunkBox, BoundingBox.expand,
            BoundingBox.minBlockPos, BoundingBox.maxBlockPos, cellList,
            intRangeIncl, List.range_succ]]
        exact List.mem_cons_self _ _
      · norm_num [marginalHeightAt, shrunkBox, BoundingBox.expand])
